import Mathlib

/-
  Verification development for the rotating quorum membership engine
  (llmq snapshot codec, snapshot store, quarter construction and quarter
  reconstruction) of the dash repository.

  Shallow embedding conventions:
  * a masternode is identified by its proTxHash, modelled as a Nat
    (uint256 values are naturals; the unsigned big-endian order is the
    Nat order);
  * CDeterministicMNList is modelled as a List Nat in canonical iteration
    order; AddMN appends, ContainsMN is membership, GetAllMNsCount is the
    length;
  * the ranking hash H(proTxHash .. modifier) used by CalculateQuorum is
    abstracted as a score function (Nat -> Nat), one per block;
  * C++ vector indexing with operator[] or .at on an out-of-range index,
    and boost sliced / erase on too-short ranges, are modelled as Option
    failure (none);
  * bytes are naturals below 256, byte streams are List Nat.
-/

/-- Masternode identity: the proTxHash. -/
abbrev ProTx := Nat

/-- Consensus::LLMQParams, the fields used by the rotation engine
(src/llmq/utils.cpp): size, signingActiveQuorumCount, dkgInterval. -/
structure LLMQParams where
  size : Nat
  signingActiveQuorumCount : Nat
  dkgInterval : Nat
deriving DecidableEq

/-- llmq::CQuorumSnapshot (src/llmq/snapshot.h:29-80): the active member
bit-set, the skip-list mode (a C++ int) and the skip list (C++ ints). -/
structure CQuorumSnapshot where
  activeQuorumMembers : List Bool
  mnSkipListMode : Int
  mnSkipList : List Int
deriving DecidableEq

/-- Interpretation of a Nat as a 32-bit two-complement int, as produced by
static_cast of an unsigned value to int in the source. -/
def toInt32 (n : Nat) : Int :=
  let w := n % 4294967296
  if w < 2147483648 then (w : Int) else (w : Int) - 4294967296

/-- size_t subtraction a - b, wrapping modulo 2 ^ 64 as in the source
expression first_entry_index - index. -/
def u64sub (a b : Nat) : Nat :=
  (((a : Int) - (b : Int)) % 18446744073709551616).toNat

/-- Conversion of a C++ int to size_t (wrapping modulo 2 ^ 64), as happens
when a skip-list entry is used as a vector index. -/
def u64ofInt (z : Int) : Nat :=
  (z % 18446744073709551616).toNat

/-- Two little-endian bytes of n. -/
def toLE2 (n : Nat) : List Nat := [n % 256, n / 256 % 256]

/-- Four little-endian bytes of n. -/
def toLE4 (n : Nat) : List Nat :=
  [n % 256, n / 256 % 256, n / 65536 % 256, n / 16777216 % 256]

/-- Eight little-endian bytes of n. -/
def toLE8 (n : Nat) : List Nat :=
  toLE4 n ++ toLE4 (n / 4294967296)

/-- Serialization of a C++ int: 32-bit little-endian two-complement. -/
def writeInt32LE (z : Int) : List Nat :=
  toLE4 ((z % 4294967296).toNat)

/-- Modelled from the spec: WriteCompactSize (serialize.h, not under src/).
Below 0xFD one byte; up to 0xFFFF a 0xFD marker plus two LE bytes; up to
0xFFFFFFFF a 0xFE marker plus four LE bytes; else 0xFF plus eight. -/
def writeCompactSize (n : Nat) : List Nat :=
  if n < 253 then [n]
  else if n ≤ 65535 then 253 :: toLE2 n
  else if n ≤ 4294967295 then 254 :: toLE4 n
  else 255 :: toLE8 n

/-- Accumulator loop for the fixed bit-set encoding: pos is the bit position
inside the byte being assembled, cur its value so far. -/
def bitsToBytesAux : List Bool → Nat → Nat → List Nat
  | [], pos, cur => if pos = 0 then [] else [cur]
  | b :: bs, pos, cur =>
    let cur2 := cur + (if b then 2 ^ pos else 0)
    if pos = 7 then cur2 :: bitsToBytesAux bs 0 0
    else bitsToBytesAux bs (pos + 1) cur2

/-- Modelled from the spec: WriteFixedBitSet (serialize.h, not under src/):
ceil(len/8) bytes, bit i stored in byte i/8 at bit i%8 (LSB first), trailing
pad bits zero. -/
def writeFixedBitSet (bits : List Bool) : List Nat :=
  bitsToBytesAux bits 0 0

/-- CQuorumSnapshot::Serialize (src/llmq/snapshot.h:50-61): mode as int,
compact size of the bit-set, the fixed bit-set, compact size of the skip
list, then each entry as int. -/
def serializeCQuorumSnapshot (s : CQuorumSnapshot) : List Nat :=
  writeInt32LE s.mnSkipListMode ++
  writeCompactSize s.activeQuorumMembers.length ++
  writeFixedBitSet s.activeQuorumMembers ++
  writeCompactSize s.mnSkipList.length ++
  s.mnSkipList.flatMap writeInt32LE

/-- Little-endian read of k bytes; none when the stream is too short. -/
def readLE : Nat → List Nat → Option (Nat × List Nat)
  | 0, bs => some (0, bs)
  | _ + 1, [] => none
  | k + 1, b :: bs =>
    match readLE k bs with
    | none => none
    | some (v, r) => some (b + 256 * v, r)

/-- Deserialization of a C++ int: four little-endian bytes, two-complement. -/
def readInt32LE (bs : List Nat) : Option (Int × List Nat) :=
  match readLE 4 bs with
  | none => none
  | some (v, r) => some (toInt32 v, r)

/-- Modelled from the spec: ReadCompactSize (serialize.h, not under src/). -/
def readCompactSize (bs : List Nat) : Option (Nat × List Nat) :=
  match bs with
  | [] => none
  | b :: r =>
    if b < 253 then some (b, r)
    else if b = 253 then readLE 2 r
    else if b = 254 then readLE 4 r
    else readLE 8 r

/-- Modelled from the spec: ReadFixedBitSet (serialize.h, not under src/):
reads ceil(cnt/8) bytes and extracts cnt bits, LSB first in each byte. -/
def readFixedBitSet (cnt : Nat) (bs : List Nat) : Option (List Bool × List Nat) :=
  let nb := (cnt + 7) / 8
  if nb ≤ bs.length then
    some ((List.range cnt).map
            (fun i => decide ((bs.take nb).getD (i / 8) 0 / 2 ^ (i % 8) % 2 = 1)),
          bs.drop nb)
  else none

/-- Reads cnt consecutive 32-bit ints. -/
def readInt32List : Nat → List Nat → Option (List Int × List Nat)
  | 0, bs => some ([], bs)
  | k + 1, bs =>
    match readInt32LE bs with
    | none => none
    | some (v, r) =>
      match readInt32List k r with
      | none => none
      | some (vs, r2) => some (v :: vs, r2)

/-- CQuorumSnapshot::Unserialize (src/llmq/snapshot.h:63-77) applied to a
fresh object (as CEvoDB::Read does): reads the mode, the bit-set and the
skip list.  The source calls mnSkipList.resize(cnt), which fills cnt zero
entries, and then push_back for every decoded entry, so the resulting skip
list is cnt zeros followed by the decoded entries. -/
def unserializeCQuorumSnapshot (bs : List Nat) : Option (CQuorumSnapshot × List Nat) :=
  match readInt32LE bs with
  | none => none
  | some (mode, r1) =>
    match readCompactSize r1 with
    | none => none
    | some (cnt, r2) =>
      match readFixedBitSet cnt r2 with
      | none => none
      | some (bits, r3) =>
        match readCompactSize r3 with
        | none => none
        | some (cnt2, r4) =>
          match readInt32List cnt2 r4 with
          | none => none
          | some (ints, r5) =>
            some ({ activeQuorumMembers := bits,
                    mnSkipListMode := mode,
                    mnSkipList := List.replicate cnt2 0 ++ ints }, r5)

/-- The codec fixture from the spec: 8 bits 1,0,1,1,0,0,1,0, mode 1,
skip list [2, -1]. -/
def snapFixture : CQuorumSnapshot :=
  { activeQuorumMembers := [true, false, true, true, false, false, true, false],
    mnSkipListMode := 1,
    mnSkipList := [2, -1] }

/-- C7: serializing the fixture snapshot (bits 1,0,1,1,0,0,1,0; mode 1;
skip list [2, -1]) produces exactly the fifteen bytes
01 00 00 00 08 4D 02 02 00 00 00 FF FF FF FF. -/
theorem C7_serialize_fixture :
    serializeCQuorumSnapshot snapFixture =
      [1, 0, 0, 0, 8, 77, 2, 2, 0, 0, 0, 255, 255, 255, 255] := by
  decide

/-- C2: the codec does not round-trip.  Deserializing the serialization of
the fixture snapshot yields a skip list of two zeros followed by the
original entries (because Unserialize resizes the skip list to cnt and then
appends with push_back), so decode (encode x) differs from x. -/
theorem C2_roundtrip_fails :
    unserializeCQuorumSnapshot (serializeCQuorumSnapshot snapFixture) =
      some ({ activeQuorumMembers := snapFixture.activeQuorumMembers,
              mnSkipListMode := 1,
              mnSkipList := [0, 0, 2, -1] }, []) ∧
    unserializeCQuorumSnapshot (serializeCQuorumSnapshot snapFixture) ≠
      some (snapFixture, []) := by
  constructor
  · decide
  · decide

/-- Modelled from the spec: the ordering step of
CDeterministicMNList::CalculateQuorum (evo/deterministicmns, not under
src/): MNs ranked by H(proTxHash .. modifier) ascending, ties broken by
proTxHash; the hash is abstracted as the score function.  Insertion of one
MN into an already ranked list. -/
def insertRanked (score : ProTx → Nat) (m : ProTx) : List ProTx → List ProTx
  | [] => [m]
  | x :: xs =>
    if score m < score x ∨ (score m = score x ∧ m ≤ x) then m :: x :: xs
    else x :: insertRanked score m xs

/-- Modelled from the spec: ranking sort for CalculateQuorum. -/
def sortByScore (score : ProTx → Nat) : List ProTx → List ProTx
  | [] => []
  | x :: xs => insertRanked score x (sortByScore score xs)

/-- Modelled from the spec: CalculateQuorum(k, modifier) returns the top-k
MNs of the ranked order.  The rotation code always passes k equal to the
list size, so the whole ranked list is returned there. -/
def calculateQuorum (score : ProTx → Nat) (l : List ProTx) (k : Nat) : List ProTx :=
  (sortByScore score l).take k

/-- llmq::PreviousQuorumQuarters (three per-quorum-index quarter vectors,
see src/llmq/utils.cpp:170-201). -/
structure PreviousQuorumQuarters where
  quarterHMinusC : List (List ProTx)
  quarterHMinus2C : List (List ProTx)
  quarterHMinus3C : List (List ProTx)
deriving DecidableEq

/-- The mode-0 slicing loop shared by BuildQuorumSnapshotSkipList
(src/llmq/utils.cpp:284-290) and GetQuorumQuarterMembersBySnapshot
(src/llmq/utils.cpp:362-368 and the identical loops after the two
stable partitions): for each of r remaining quorum indices starting at i,
push the first quarterSize elements of the combined list into
quarterMembers[i] and erase them from the combined list.  An out-of-range
quarterMembers[i] access, or a boost sliced / erase call on a combined list
shorter than quarterSize, is undefined behavior in the source and yields
none here. -/
def fillQuartersNoSkip (qsz : Nat) :
    Nat → Nat → List (List ProTx) → List ProTx → Option (List (List ProTx))
  | _, 0, qm, _ => some qm
  | i, r + 1, qm, comb =>
    if qsz ≤ comb.length then
      match qm.get? i with
      | none => none
      | some q => fillQuartersNoSkip qsz (i + 1) r (qm.set i (q ++ comb.take qsz)) (comb.drop qsz)
    else none

/-- The mode-1 / mode-2 writer loop of BuildQuorumSnapshotSkipList
(src/llmq/utils.cpp:296-310 and 316-330).  State: i is the quorum index,
r the remaining quorum count, first the first_entry_index variable (a
size_t whose value 0 doubles as the not-yet-set sentinel), index the cursor
into the combined list, skip the accumulated skip list, qm the quarter
vector.  recordIf decides whether an element is recorded in the skip list
(mode 1: the element is in mnUsedAtH; mode 2: it is not); otherwise the
element is pushed into quarterMembers[i].  The fuel argument only bounds
the recursion; every reachable call terminates before it runs out because
each step either consumes one combined element or finishes one quorum. -/
def skipListLoop (recordIf : ProTx → Bool) (qsz : Nat) (combined : List ProTx) :
    Nat → Nat → Nat → Nat → Nat → List Int → List (List ProTx) →
    Option (List Int × List (List ProTx))
  | 0, _, _, _, _, _, _ => none
  | _ + 1, _, 0, _, _, skip, qm => some (skip, qm)
  | fuel + 1, i, r + 1, first, index, skip, qm =>
    match qm.get? i with
    | none => none
    | some q =>
      if q.length < qsz ∧ index < combined.length then
        match combined.get? index with
        | none => none
        | some m =>
          if recordIf m then
            if first = 0 then
              skipListLoop recordIf qsz combined fuel i (r + 1) index (index + 1)
                (skip ++ [toInt32 index]) qm
            else
              skipListLoop recordIf qsz combined fuel i (r + 1) first (index + 1)
                (skip ++ [toInt32 (u64sub first index)]) qm
          else
            skipListLoop recordIf qsz combined fuel i (r + 1) first (index + 1)
              skip (qm.set i (q ++ [m]))
      else
        skipListLoop recordIf qsz combined fuel (i + 1) r first index skip qm

/-- CLLMQUtils::BuildQuorumSnapshotSkipList (src/llmq/utils.cpp:270-336).
The returned snapshot reflects every field the source assigns before the
function returns or before its first out-of-range container access; the
quarters component is none when such an access happens (the source lines
275-276 resize quarterMembers to quarterSize and then immediately clear it,
so the vector is empty when the loops index it).  The commented-out
MODE_ALL_SKIPPED block at lines 333-335 is absent, as in the source. -/
def buildQuorumSnapshotSkipList (params : LLMQParams)
    (mnUsedAtH sortedCombinedMns : List ProTx)
    (quarterMembersIn : List (List ProTx)) (snapIn : CQuorumSnapshot) :
    CQuorumSnapshot × Option (List (List ProTx)) :=
  let quarterSize := params.size / 4
  let n := params.signingActiveQuorumCount
  -- utils.cpp:275-276 resizes quarterMembersIn to quarterSize and then
  -- immediately clears it, so the vector the loops index is empty.
  let quarterMembers : List (List ProTx) := []
  if mnUsedAtH.length = 0 then
    ({ snapIn with mnSkipListMode := 0, mnSkipList := [] },
     fillQuartersNoSkip quarterSize 0 n quarterMembers sortedCombinedMns)
  else if mnUsedAtH.length < sortedCombinedMns.length / 2 then
    match skipListLoop (fun m => decide (m ∈ mnUsedAtH)) quarterSize sortedCombinedMns
        (n + sortedCombinedMns.length + 1) 0 n 0 0 [] quarterMembers with
    | none => ({ snapIn with mnSkipListMode := 1 }, none)
    | some (skip, qm) =>
      ({ snapIn with mnSkipListMode := 1, mnSkipList := snapIn.mnSkipList ++ skip },
       some qm)
  else
    match skipListLoop (fun m => !decide (m ∈ mnUsedAtH)) quarterSize sortedCombinedMns
        (n + sortedCombinedMns.length + 1) 0 n 0 0 [] quarterMembers with
    | none => ({ snapIn with mnSkipListMode := 2 }, none)
    | some (skip, qm) =>
      ({ snapIn with mnSkipListMode := 2, mnSkipList := snapIn.mnSkipList ++ skip },
       some qm)

/-- CLLMQUtils::BuildQuorumSnapshot (src/llmq/utils.cpp:253-268): sets
activeQuorumMembers bit i iff the i-th MN of the canonical list is in
mnUsedAtH, then builds the skip list and the quarters. -/
def buildQuorumSnapshot (params : LLMQParams)
    (mnAtH mnUsedAtH sortedCombinedMns : List ProTx)
    (quarterMembersIn : List (List ProTx)) (snapIn : CQuorumSnapshot) :
    CQuorumSnapshot × Option (List (List ProTx)) :=
  let snap1 := { snapIn with
    activeQuorumMembers := mnAtH.map (fun m => decide (m ∈ mnUsedAtH)) }
  buildQuorumSnapshotSkipList params mnUsedAtH sortedCombinedMns quarterMembersIn snap1

/-- CLLMQUtils::BuildNewQuorumQuarterMembers (src/llmq/utils.cpp:203-251):
collects the MNs used by the three previous quarters (per quorum index:
H-C, then H-2C, then H-3C), the unused remainder of the MN list at the
cycle base, ranks both with the block modifier (abstracted as score),
concatenates not-used before used, and builds the snapshot and quarters.
The snapshot the source would persist via StoreSnapshotForBlock is the
first component; the second is the new quarter vector, or none when the
quarter filling performed an out-of-range access. -/
def buildNewQuorumQuarterMembers (score : ProTx → Nat) (params : LLMQParams)
    (allMns : List ProTx) (prev : PreviousQuorumQuarters) :
    CQuorumSnapshot × Option (List (List ProTx)) :=
  let nQuorums := params.signingActiveQuorumCount
  let quarterQuorumMembers : List (List ProTx) := List.replicate nQuorums []
  let mnsUsedAtH := (List.range nQuorums).flatMap (fun i =>
    prev.quarterHMinusC.getD i [] ++ prev.quarterHMinus2C.getD i [] ++
    prev.quarterHMinus3C.getD i [])
  let mnsNotUsedAtH := allMns.filter (fun m => !decide (m ∈ mnsUsedAtH))
  let sortedMnsUsedAtH := calculateQuorum score mnsUsedAtH mnsUsedAtH.length
  let sortedMnsNotUsedAtH := calculateQuorum score mnsNotUsedAtH mnsNotUsedAtH.length
  let sortedCombinedMnsList := sortedMnsNotUsedAtH ++ sortedMnsUsedAtH
  buildQuorumSnapshot params allMns mnsUsedAtH sortedCombinedMnsList
    quarterQuorumMembers { activeQuorumMembers := [], mnSkipListMode := 0, mnSkipList := [] }

/-- CLLMQUtils::GetMNUsageBySnapshot (src/llmq/utils.cpp:435-454): walks
the canonical MN list with a running index and reads bit index of the
snapshot bit-set, placing the MN into the used or the non-used list.  No
length comparison is performed; a read past the end of the bit-set is
undefined behavior in the source and yields none here, and surplus bits
are ignored. -/
def getMNUsageBySnapshot : List Bool → List ProTx → Option (List ProTx × List ProTx)
  | _, [] => some ([], [])
  | [], _ :: _ => none
  | b :: bs, m :: ms =>
    match getMNUsageBySnapshot bs ms with
    | none => none
    | some (u, nu) => if b then some (m :: u, nu) else some (u, m :: nu)

/-- The skip-list reader loop of GetQuorumQuarterMembersBySnapshot
(src/llmq/utils.cpp:374-382 and 404-412): walks the stored entries keeping
the first_entry_index sentinel; the first entry (and any entry seen while
first_entry_index is still 0) indexes the combined list directly, later
entries index at first_entry_index + s with the int converted to size_t;
.at on an out-of-range index throws in the source and yields none here.
Returns the referenced proTxHashes. -/
def readSkipSet (combined : List ProTx) : List Int → Nat → List ProTx → Option (List ProTx)
  | [], _, acc => some acc
  | s :: rest, first, acc =>
    if first = 0 then
      match combined.get? (u64ofInt s) with
      | none => none
      | some m => readSkipSet combined rest (u64ofInt s) (acc ++ [m])
    else
      match combined.get? ((first + u64ofInt s) % 18446744073709551616) with
      | none => none
      | some m => readSkipSet combined rest first (acc ++ [m])

/-- CLLMQUtils::GetQuorumQuarterMembersBySnapshot (src/llmq/utils.cpp:
338-433): partitions the MN list at the block by the snapshot bit-set,
ranks used and non-used with the block modifier (abstracted as score),
concatenates non-used before used, then fills the quarters by mode:
mode 0 slices directly; mode 1 stable-partitions the entries referenced by
the skip list to the back, mode 2 to the front, then slices; mode 3 and
any unknown mode fall through every branch and return the n empty
quarters. -/
def getQuorumQuarterMembersBySnapshot (score : ProTx → Nat) (params : LLMQParams)
    (mns : List ProTx) (snapshot : CQuorumSnapshot) : Option (List (List ProTx)) :=
  let n := params.signingActiveQuorumCount
  let quarterSize := params.size / 4
  let quarterQuorumMembers : List (List ProTx) := List.replicate n []
  match getMNUsageBySnapshot snapshot.activeQuorumMembers mns with
  | none => none
  | some (usedMNs, nonUsedMNs) =>
    let sortedMnsUsedAtH := calculateQuorum score usedMNs usedMNs.length
    let sortedMnsNotUsedAtH := calculateQuorum score nonUsedMNs nonUsedMNs.length
    let sortedCombinedMnsList := sortedMnsNotUsedAtH ++ sortedMnsUsedAtH
    if snapshot.mnSkipListMode = 0 then
      fillQuartersNoSkip quarterSize 0 n quarterQuorumMembers sortedCombinedMnsList
    else if snapshot.mnSkipListMode = 1 then
      match readSkipSet sortedCombinedMnsList snapshot.mnSkipList 0 [] with
      | none => none
      | some toRemove =>
        let part := sortedCombinedMnsList.filter (fun m => !decide (m ∈ toRemove)) ++
                    sortedCombinedMnsList.filter (fun m => decide (m ∈ toRemove))
        fillQuartersNoSkip quarterSize 0 n quarterQuorumMembers part
    else if snapshot.mnSkipListMode = 2 then
      match readSkipSet sortedCombinedMnsList snapshot.mnSkipList 0 [] with
      | none => none
      | some toKeep =>
        let part := sortedCombinedMnsList.filter (fun m => decide (m ∈ toKeep)) ++
                    sortedCombinedMnsList.filter (fun m => !decide (m ∈ toKeep))
        fillQuartersNoSkip quarterSize 0 n quarterQuorumMembers part
    else
      some quarterQuorumMembers

/-- The chain environment consumed by the rotation code: the canonical MN
list at a block, the stored snapshot at a block (the snapshot manager
lookup), and the per-block ranking score abstracting
H(proTxHash .. modifier(block)).  Blocks are identified by height on a
fixed chain, so GetAncestor(h - k) is h - k. -/
structure ChainEnv where
  mnListAt : Nat → List ProTx
  snapshotAt : Nat → Option CQuorumSnapshot
  scoreAt : Nat → ProTx → Nat

/-- CLLMQUtils::GetPreviousQuorumQuarterMembers (src/llmq/utils.cpp:
170-201): the three quarter vectors start as n empty quarters each; the
snapshot lookups are nested, so the H-2C snapshot is consulted only when
the H-C snapshot exists, and the H-3C snapshot only when both exist.  A
failed reconstruction (an exception in the source) yields none; a missing
snapshot is not an error. -/
def getPreviousQuorumQuarterMembers (env : ChainEnv) (params : LLMQParams)
    (bC b2C b3C : Nat) : Option PreviousQuorumQuarters :=
  let e : List (List ProTx) := List.replicate params.signingActiveQuorumCount []
  match env.snapshotAt bC with
  | none => some ⟨e, e, e⟩
  | some s1 =>
    match getQuorumQuarterMembersBySnapshot (env.scoreAt bC) params (env.mnListAt bC) s1 with
    | none => none
    | some q1 =>
      match env.snapshotAt b2C with
      | none => some ⟨q1, e, e⟩
      | some s2 =>
        match getQuorumQuarterMembersBySnapshot (env.scoreAt b2C) params (env.mnListAt b2C) s2 with
        | none => none
        | some q2 =>
          match env.snapshotAt b3C with
          | none => some ⟨q1, q2, e⟩
          | some s3 =>
            match getQuorumQuarterMembersBySnapshot (env.scoreAt b3C) params (env.mnListAt b3C) s3 with
            | none => none
            | some q3 => some ⟨q1, q2, q3⟩

/-- The concatenation loop of ComputeQuorumMembersByQuarterRotation
(src/llmq/utils.cpp:152-165): for each quorum index the members are the
H-3C quarter, then the H-2C quarter, then the H-C quarter, then the new
quarter; every vector is indexed, so a short vector yields none. -/
def concatQuarters (n : Nat) (prev : PreviousQuorumQuarters)
    (newQ : List (List ProTx)) : Option (List (List ProTx)) :=
  (List.range n).mapM (fun i =>
    match prev.quarterHMinus3C.get? i, prev.quarterHMinus2C.get? i,
          prev.quarterHMinusC.get? i, newQ.get? i with
    | some a, some b, some c, some d => some (a ++ b ++ c ++ d)
    | _, _, _, _ => none)

/-- CLLMQUtils::ComputeQuorumMembersByQuarterRotation (src/llmq/utils.cpp:
116-168): reconstructs the three previous quarters from the snapshots at
heights h - c, h - 2c, h - 3c, builds the new quarter (persisting its
snapshot), and concatenates the four quarters per quorum index. -/
def computeQuorumMembersByQuarterRotation (env : ChainEnv) (params : LLMQParams)
    (h : Nat) : Option (List (List ProTx)) :=
  let c := params.dkgInterval
  match getPreviousQuorumQuarterMembers env params (h - c) (h - 2 * c) (h - 3 * c) with
  | none => none
  | some prev =>
    match (buildNewQuorumQuarterMembers (env.scoreAt h) params (env.mnListAt h) prev).2 with
    | none => none
    | some newQ => concatQuarters params.signingActiveQuorumCount prev newQ

/-- Association-list lookup with the key first, modelling unordered_map
find and CEvoDB reads; the key is the SerializeHash pair (llmqType,
blockHash), modelled as the pair itself (the hash is collision-free). -/
def assocFind (k : Nat × Nat) : List ((Nat × Nat) × CQuorumSnapshot) → Option CQuorumSnapshot
  | [] => none
  | (k2, v) :: rest => if k = k2 then some v else assocFind k rest

/-- std::unordered_map::emplace: inserts only when the key is absent and
never changes an existing entry. -/
def mapEmplace (l : List ((Nat × Nat) × CQuorumSnapshot)) (k : Nat × Nat)
    (v : CQuorumSnapshot) : List ((Nat × Nat) × CQuorumSnapshot) :=
  match assocFind k l with
  | some _ => l
  | none => (k, v) :: l

/-- CEvoDB::Write: an overwriting put (a newer entry shadows older ones
for assocFind). -/
def dbWrite (l : List ((Nat × Nat) × CQuorumSnapshot)) (k : Nat × Nat)
    (v : CQuorumSnapshot) : List ((Nat × Nat) × CQuorumSnapshot) :=
  (k, v) :: l

/-- State of llmq::CQuorumSnapshotManager (src/llmq/snapshot.h:128-142):
the in-memory quorumSnapshotCache and the persistent evoDb contents. -/
structure SnapshotManagerState where
  cache : List ((Nat × Nat) × CQuorumSnapshot)
  db : List ((Nat × Nat) × CQuorumSnapshot)

/-- CQuorumSnapshotManager::GetSnapshotForBlock (src/llmq/snapshot.cpp:
216-235): consult the cache; on miss read the persistent store and, on a
hit there, emplace the snapshot into the cache. -/
def getSnapshotForBlock (st : SnapshotManagerState) (k : Nat × Nat) :
    Option CQuorumSnapshot × SnapshotManagerState :=
  match assocFind k st.cache with
  | some s => (some s, st)
  | none =>
    match assocFind k st.db with
    | some s => (some s, { st with cache := mapEmplace st.cache k s })
    | none => (none, st)

/-- CQuorumSnapshotManager::StoreSnapshotForBlock (src/llmq/snapshot.cpp:
237-245): write the persistent store, then emplace into the cache. -/
def storeSnapshotForBlock (st : SnapshotManagerState) (k : Nat × Nat)
    (s : CQuorumSnapshot) : SnapshotManagerState :=
  { db := dbWrite st.db k s, cache := mapEmplace st.cache k s }

/-- Concrete parameters: size 4, one signing-active quorum, cycle 4. -/
def p1 : LLMQParams := ⟨4, 1, 4⟩

/-- Concrete parameters: size 8, one signing-active quorum, cycle 8. -/
def p8 : LLMQParams := ⟨8, 1, 8⟩

/-- A value-initialized snapshot, as CQuorumSnapshot quorumSnapshot = {}. -/
def snap0 : CQuorumSnapshot := ⟨[], 0, []⟩

/-- Empty previous quarters for one signing-active quorum. -/
def prevEmpty1 : PreviousQuorumQuarters := ⟨[[]], [[]], [[]]⟩

/-- A one-bit snapshot with the bit clear, mode 0, empty skip list. -/
def snapA : CQuorumSnapshot := ⟨[false], 0, []⟩

/-- Chain with MN list [1, 2] everywhere, no stored snapshots, identity
ranking score. -/
def env0 : ChainEnv := ⟨fun _ => [1, 2], fun _ => none, fun _ m => m⟩

/-- Chain with MN list [4] everywhere, a snapshot stored only at block 8,
identity ranking score. -/
def env1 : ChainEnv :=
  ⟨fun _ => [4], fun b => if b = 8 then some snapA else none, fun _ m => m⟩

/-- Chain with MN list [4] everywhere, snapshots stored at every block
except block 6, identity ranking score. -/
def env2 : ChainEnv :=
  ⟨fun _ => [4], fun b => if b = 6 then none else some snapA, fun _ m => m⟩

/-- The on-state manager with empty cache and empty persistent store. -/
def mgr0 : SnapshotManagerState := ⟨[], []⟩

/-- C3: the snapshot mode written by BuildQuorumSnapshotSkipList depends
only on the counts: mode 0 (with the skip list cleared) when the used list
is empty, mode 1 when the used count is below half the combined count
(integer division), mode 2 otherwise; this holds for every input, in
particular for arbitrary preexisting snapshot contents. -/
theorem C3_snapshot_mode_by_counts (params : LLMQParams) (used combined : List ProTx)
    (qmIn : List (List ProTx)) (snapIn : CQuorumSnapshot) :
    ((buildQuorumSnapshotSkipList params used combined qmIn snapIn).1.mnSkipListMode =
      if used.length = 0 then 0 else if used.length < combined.length / 2 then 1 else 2) ∧
    (used.length = 0 →
      (buildQuorumSnapshotSkipList params used combined qmIn snapIn).1.mnSkipList = []) := by
  constructor
  · simp only [buildQuorumSnapshotSkipList]
    split_ifs with h0 h1
    · rfl
    · split <;> rfl
    · split <;> rfl
  · intro h0
    simp [buildQuorumSnapshotSkipList, h0]

/-- Instance of C3 at a concrete input: an empty used list yields mode 0
and a cleared skip list. -/
theorem C3_snapshot_mode_by_counts_inst :
    (buildQuorumSnapshotSkipList p1 [] [7] [[]] snap0).1.mnSkipListMode = 0 ∧
    (buildQuorumSnapshotSkipList p1 [] [7] [[]] snap0).1.mnSkipList = [] := by
  have h := C3_snapshot_mode_by_counts p1 [] [7] [[]] snap0
  exact ⟨h.1.trans (by decide), h.2 (by decide)⟩

/-- C9: refuted.  With signingActiveQuorumCount 1 and the non-empty
combined list [7], the quarter filling of BuildQuorumSnapshotSkipList
reaches the none branch of the quarterMembers indexing: the source resizes
quarterMembers to quarterSize and immediately clears it (utils.cpp:
275-276), so the access quarterMembers[0] is out of bounds and no quarters
are produced. -/
theorem C9_quarter_index_oob :
    p1.signingActiveQuorumCount = 1 ∧ ([7] : List ProTx) ≠ [] ∧
    (buildQuorumSnapshotSkipList p1 [] [7] [[]] snap0).2 = none := by
  decide

/-- C4: refuted.  With quorum size 8 (quarter size 2), one used MN and the
combined list [5], the iteration cannot fill the single quarter, yet the
emitted mode is 2, never ALL_SKIPPED (3) — that assignment is commented out
in the source (utils.cpp:333-335) — and no list of n empty quarters is
returned (the quarter filling aborts on the cleared quarterMembers
vector). -/
theorem C4_no_all_skipped :
    (buildQuorumSnapshotSkipList p8 [5] [5] [[]] snap0).1.mnSkipListMode = 2 ∧
    (buildQuorumSnapshotSkipList p8 [5] [5] [[]] snap0).1.mnSkipListMode ≠ 3 ∧
    (buildQuorumSnapshotSkipList p8 [5] [5] [[]] snap0).2 ≠
      some (List.replicate p8.signingActiveQuorumCount []) := by
  decide

/-- C1: refuted.  At a cycle base with MN list [1, 2], no previous
quarters and identity score, BuildNewQuorumQuarterMembers produces no
quarters at all (the filling aborts on the cleared quarterMembers vector),
while reconstruction from the very snapshot it computed yields the
one-quarter result [[1]]; the produced quarters and the reconstructed
quarters therefore differ. -/
theorem C1_build_reconstruct_mismatch :
    (buildNewQuorumQuarterMembers (fun m => m) p1 [1, 2] prevEmpty1).2 = none ∧
    getQuorumQuarterMembersBySnapshot (fun m => m) p1 [1, 2]
      (buildNewQuorumQuarterMembers (fun m => m) p1 [1, 2] prevEmpty1).1 = some [[1]] := by
  decide

/-- C10: refuted.  On a chain with no stored snapshots the previous
quarters are all empty and well-defined, yet
ComputeQuorumMembersByQuarterRotation returns no member lists: the new
quarter construction aborts before the concatenation loop can run. -/
theorem C10_concatenation_never_returned :
    getPreviousQuorumQuarterMembers env0 p1 8 4 0 = some ⟨[[]], [[]], [[]]⟩ ∧
    computeQuorumMembersByQuarterRotation env0 p1 12 = none := by
  decide

/-- C5: counterexample.  The snapshot at the H-2C block (8) exists and
reconstructs to [[4]], the snapshot at the H-C block (10) is missing, and
GetPreviousQuorumQuarterMembers completes without error — but it returns
the empty quarter for H-2C as well, not the reconstructed [[4]]: a missing
snapshot at one ancestor does not leave only that quarter empty. -/
theorem C5_nested_lookup_counterexample :
    env1.snapshotAt 8 = some snapA ∧
    getQuorumQuarterMembersBySnapshot (env1.scoreAt 8) p1 (env1.mnListAt 8) snapA = some [[4]] ∧
    getPreviousQuorumQuarterMembers env1 p1 10 8 6 = some ⟨[[]], [[]], [[]]⟩ ∧
    ([[4]] : List (List ProTx)) ≠ [[]] := by
  decide

/-- C5 amended: a missing ancestor snapshot is not an error, but the
lookups are nested: a missing H-C snapshot leaves all three previous
quarters empty; H-C present and H-2C missing leaves the H-2C and H-3C
quarters empty; only a missing H-3C snapshot leaves exactly that quarter
empty while H-C and H-2C are reconstructed. -/
theorem C5_missing_snapshot_nested (env : ChainEnv) (params : LLMQParams)
    (bC b2C b3C : Nat) (s1 s2 : CQuorumSnapshot) (q1 q2 : List (List ProTx)) :
    (env.snapshotAt bC = none →
      getPreviousQuorumQuarterMembers env params bC b2C b3C =
        some ⟨List.replicate params.signingActiveQuorumCount [],
              List.replicate params.signingActiveQuorumCount [],
              List.replicate params.signingActiveQuorumCount []⟩) ∧
    (env.snapshotAt bC = some s1 →
     getQuorumQuarterMembersBySnapshot (env.scoreAt bC) params (env.mnListAt bC) s1 = some q1 →
     env.snapshotAt b2C = none →
      getPreviousQuorumQuarterMembers env params bC b2C b3C =
        some ⟨q1, List.replicate params.signingActiveQuorumCount [],
              List.replicate params.signingActiveQuorumCount []⟩) ∧
    (env.snapshotAt bC = some s1 →
     getQuorumQuarterMembersBySnapshot (env.scoreAt bC) params (env.mnListAt bC) s1 = some q1 →
     env.snapshotAt b2C = some s2 →
     getQuorumQuarterMembersBySnapshot (env.scoreAt b2C) params (env.mnListAt b2C) s2 = some q2 →
     env.snapshotAt b3C = none →
      getPreviousQuorumQuarterMembers env params bC b2C b3C =
        some ⟨q1, q2, List.replicate params.signingActiveQuorumCount []⟩) := by
  refine ⟨fun h1 => ?_, fun h1 r1 h2 => ?_, fun h1 r1 h2 r2 h3 => ?_⟩
  · simp [getPreviousQuorumQuarterMembers, h1]
  · simp [getPreviousQuorumQuarterMembers, h1, r1, h2]
  · simp [getPreviousQuorumQuarterMembers, h1, r1, h2, r2, h3]

/-- Instance of the amended C5 at a concrete chain: snapshots present at
blocks 10 and 8, missing at block 6; exactly the H-3C quarter is empty. -/
theorem C5_missing_snapshot_nested_inst :
    getPreviousQuorumQuarterMembers env2 p1 10 8 6 = some ⟨[[4]], [[4]], [[]]⟩ := by
  exact (C5_missing_snapshot_nested env2 p1 10 8 6 snapA snapA [[4]] [[4]]).2.2
    (by decide) (by decide) (by decide) (by decide) (by decide)

/-- C6: counterexample.  A two-bit bit-set against a one-MN list: the
lengths differ, yet the usage partition and the full reconstruction both
succeed (the surplus bit is ignored) — no length check is performed and no
MalformedSnapshot failure occurs. -/
theorem C6_no_length_check_counterexample :
    getMNUsageBySnapshot [false, true] [4] = some ([], [4]) ∧
    getQuorumQuarterMembersBySnapshot (fun m => m) p1 [4] ⟨[false, true], 0, []⟩ =
      some [[4]] ∧
    ([false, true] : List Bool).length ≠ ([4] : List ProTx).length := by
  decide

/-- C6 amended: GetMNUsageBySnapshot performs no length check; it reads
one bit per MN-list position and is defined exactly when the bit-set is at
least as long as the MN list (surplus bits are ignored); a shorter bit-set
makes the bit read out of range. -/
theorem C6_usage_defined_iff_bits_cover (bits : List Bool) (mns : List ProTx) :
    (getMNUsageBySnapshot bits mns).isSome ↔ mns.length ≤ bits.length := by
  induction mns generalizing bits with
  | nil => simp [getMNUsageBySnapshot]
  | cons m ms ih =>
    cases bits with
    | nil => simp [getMNUsageBySnapshot]
    | cons b bs =>
      simp only [getMNUsageBySnapshot, List.length_cons, Nat.succ_le_succ_iff]
      rw [← ih bs]
      cases h : getMNUsageBySnapshot bs ms with
      | none => simp [h]
      | some p => cases b <;> simp [h]

/-- C8: counterexample.  With signingActiveQuorumCount 1 the claimed cache
bound is 2, yet three stores under distinct keys leave three entries in
the cache: nothing is ever evicted. -/
theorem C8_cache_unbounded_counterexample :
    (storeSnapshotForBlock (storeSnapshotForBlock
        (storeSnapshotForBlock mgr0 (1, 10) snapA) (1, 11) snapA) (1, 12) snapA).cache.length = 3 ∧
    ¬ (3 ≤ p1.signingActiveQuorumCount + 1) := by
  decide

/-- Entries already in the cache survive mapEmplace. -/
theorem assocFind_mapEmplace_preserve (l : List ((Nat × Nat) × CQuorumSnapshot))
    (k k2 : Nat × Nat) (v s2 : CQuorumSnapshot) (h : assocFind k l = some v) :
    assocFind k (mapEmplace l k2 s2) = some v := by
  unfold mapEmplace
  cases hx : assocFind k2 l with
  | some w => simpa [hx] using h
  | none =>
    have hne : k ≠ k2 := by
      rintro rfl
      rw [h] at hx
      cases hx
    simp [hx, assocFind, hne, h]

/-- C8 amended: the snapshot cache is an unbounded unordered map with no
eviction: every entry present in the cache is still present, unchanged,
after any StoreSnapshotForBlock and after any GetSnapshotForBlock (both
only ever add entries), so no capacity bound is enforced. -/
theorem C8_cache_no_eviction (st : SnapshotManagerState) (k k2 : Nat × Nat)
    (v s2 : CQuorumSnapshot) (h : assocFind k st.cache = some v) :
    assocFind k (storeSnapshotForBlock st k2 s2).cache = some v ∧
    assocFind k (getSnapshotForBlock st k2).2.cache = some v := by
  constructor
  · exact assocFind_mapEmplace_preserve st.cache k k2 v s2 h
  · unfold getSnapshotForBlock
    cases hc : assocFind k2 st.cache with
    | some s => simpa using h
    | none =>
      cases hd : assocFind k2 st.db with
      | some s => simpa using assocFind_mapEmplace_preserve st.cache k k2 v s h
      | none => simpa using h

/-- Instance of the amended C8 at a concrete state: the entry stored first
is still cached after a second store and after a get under another key. -/
theorem C8_cache_no_eviction_inst :
    assocFind (1, 10) (storeSnapshotForBlock (storeSnapshotForBlock mgr0 (1, 10) snapA)
      (1, 11) snapA).cache = some snapA ∧
    assocFind (1, 10) (getSnapshotForBlock (storeSnapshotForBlock mgr0 (1, 10) snapA)
      (1, 11)).2.cache = some snapA := by
  exact C8_cache_no_eviction (storeSnapshotForBlock mgr0 (1, 10) snapA) (1, 10) (1, 11)
    snapA snapA (by decide)
